import Mathlib

/-!
Verification of the hexagon aggregation-and-ranking engine of `grid_agent`
(`src/endpoints.py`, function `score`, together with the place-name helper
`latlng_to_location` and the pydantic models of `agent_utils/schemas.py`).

Python floats are embedded as rationals (`ℚ`); JSON `null` and an absent
field are both embedded as `none` (Python `dict.get` returns `None` in both
cases).  External collaborators (the Supabase fetch, the LLM weight agent,
the h3 / Nominatim place-name lookup) appear as parameters of the
definitions, exactly as their results enter the `score` function.
-/

namespace GridAgent

/-- One row of one of the three metric tables (`grid_data`, `network_data`,
`temperature_data`).  `norm_score` embeds the table's designated
normalized-score column (`connection_normalized_score`,
`latency_normalized_score`, `temperature_normalized_score` respectively) and
`raw_value` the table's raw measurement column (`connection_points`,
`latency_ms`, `avg_temperature`).  `none` is an absent field or JSON null. -/
structure MetricRecord where
  hexagon_id : Option String
  raw_value : Option ℚ
  norm_score : Option ℚ
deriving Repr, DecidableEq

/-- The weight vector returned by the agent (`Scorer` in
`agent_utils/schemas.py`). -/
structure Scorer where
  score_grid : ℚ
  score_temperature : ℚ
  score_network : ℚ
deriving Repr, DecidableEq

/-- `HexagonData` of `agent_utils/schemas.py`: the per-hexagon display
record built at `endpoints.py` lines 169-177. -/
structure HexagonData where
  score : ℚ
  connection_points : Option ℚ
  latency_ms : Option ℚ
  avg_temperature : Option ℚ
  connection_normalized_score : Option ℚ
  latency_normalized_score : Option ℚ
  temperature_normalized_score : Option ℚ
deriving Repr, DecidableEq

/-- `InformationResponse` of `agent_utils/schemas.py`, the value returned by
`score`.  The two Python dicts are embedded as association lists with unique
keys. -/
structure InformationResponse where
  response : String
  hexagonData : List (String × HexagonData)
  highlighted : List (String × ℚ)
deriving Repr, DecidableEq

/-- The `address` object of a successful Nominatim reverse lookup
(`endpoints.py` lines 45-47): the three fields `latlng_to_location` reads.
`none` is an absent field. -/
structure Address where
  town : Option String
  city : Option String
  village : Option String
deriving Repr, DecidableEq

/-- Python truthiness of an optional string: `None` and `""` are falsy. -/
def truthy : Option String → Bool
  | some s => s ≠ ""
  | none => false

/-- `latlng_to_location` (`endpoints.py` lines 29-49).  The argument is the
outcome of the external HTTP lookup: `none` when the request raised, timed
out or returned a non-success status (the `except` path), `some a` the
parsed `address` object of a successful response (a missing `address` key
gives the record with all fields `none`, matching `data.get('address', {})`).
The chain `address.get('town') or address.get('city') or
address.get('village') or "Unknown"` short-circuits on Python truthiness. -/
def latlng_to_location (resp : Option Address) : String :=
  match resp with
  | none => "Unknown"
  | some a =>
    if truthy a.town then a.town.getD "" else
    if truthy a.city then a.city.getD "" else
    if truthy a.village then a.village.getD "" else "Unknown"

/-- The dict key a record contributes, if any: `endpoints.py` line 132 keys
on `item.get('hexagon_id')` and the guard `if item.get('hexagon_id')` drops
records whose `hexagon_id` is absent, null, or the falsy `""`. -/
def keyOf (r : MetricRecord) : Option String :=
  r.hexagon_id.bind fun h => if h = "" then none else some h

/-- One step of the dict comprehension at `endpoints.py` lines 132-134: a
record with a truthy `hexagon_id` (re-)binds its key, so a later duplicate
overwrites an earlier one. -/
def dictInsert (d : String → Option MetricRecord) (r : MetricRecord) :
    String → Option MetricRecord :=
  fun k => if keyOf r = some k then some r else d k

/-- The lookup dict built from one table (`endpoints.py` lines 132-134). -/
def buildDict (rs : List MetricRecord) : String → Option MetricRecord :=
  rs.foldl dictInsert (fun _ => none)

/-- The key set of one table's dict, as a duplicate-free list. -/
def dictKeys (rs : List MetricRecord) : List String :=
  (rs.filterMap keyOf).dedup

/-- `all_ids` (`endpoints.py` line 137): the union of the three dicts' key
sets.  Python iterates this `set` in an unspecified order; the embedding
fixes one concrete duplicate-free enumeration, which no claim depends on. -/
def allIds (grid network temp : List MetricRecord) : List String :=
  (dictKeys grid ++ dictKeys network ++ dictKeys temp).dedup

/-- The per-dimension normalized score with default (`endpoints.py` lines
149-151): the record's normalized-score field when present and non-null,
`-1` otherwise (also when the record itself is missing, since
`dict.get(id, {})` then yields the empty record). -/
def normOf (d : String → Option MetricRecord) (id : String) : ℚ :=
  ((d id).bind MetricRecord.norm_score).getD (-1)

/-- `aggregated_score` (`endpoints.py` lines 154-158): the weighted sum of
the three per-dimension normalized scores. -/
def aggregatedScore (w : Scorer) (g n t : ℚ) : ℚ :=
  w.score_grid * g + w.score_network * n + w.score_temperature * t

/-- `normalized_aggregated_score` (`endpoints.py` lines 162-166): `0` when
all three per-dimension scores equal `-1`, otherwise the rescale
`(agg + 1) / 2` clamped into `[0, 1]`. -/
def normalizedAggregatedScore (g n t agg : ℚ) : ℚ :=
  if g = -1 ∧ n = -1 ∧ t = -1 then 0
  else max 0 (min 1 ((agg + 1) / 2))

/-- The `HexagonData` built for one id (`endpoints.py` lines 169-177).
`(d id).bind f` is `record.get(field)` on the record defaulted to `{}`. -/
def hexagonDataFor (w : Scorer) (gd nd td : String → Option MetricRecord)
    (id : String) : HexagonData :=
  let g := normOf gd id
  let n := normOf nd id
  let t := normOf td id
  { score := normalizedAggregatedScore g n t (aggregatedScore w g n t)
    connection_points := (gd id).bind MetricRecord.raw_value
    latency_ms := (nd id).bind MetricRecord.raw_value
    avg_temperature := (td id).bind MetricRecord.raw_value
    connection_normalized_score := (gd id).bind MetricRecord.norm_score
    latency_normalized_score := (nd id).bind MetricRecord.norm_score
    temperature_normalized_score := (td id).bind MetricRecord.norm_score }

/-- `hexagon_data_dict` (`endpoints.py` lines 141-177) as an association
list over the universe of ids. -/
def hexagonDataList (w : Scorer) (grid network temp : List MetricRecord) :
    List (String × HexagonData) :=
  (allIds grid network temp).map fun id =>
    (id, hexagonDataFor w (buildDict grid) (buildDict network) (buildDict temp) id)

/-- `scored_data` (`endpoints.py` lines 179-182): one
`(hexagon_id, aggregated_score)` pair per id in the universe. -/
def scoredData (w : Scorer) (grid network temp : List MetricRecord) :
    List (String × ℚ) :=
  (allIds grid network temp).map fun id =>
    (id, aggregatedScore w (normOf (buildDict grid) id)
      (normOf (buildDict network) id) (normOf (buildDict temp) id))

/-- Insertion into a list sorted descending by the score component, placing
the new element before the first entry whose score is not larger. -/
def insertDesc (p : String × ℚ) : List (String × ℚ) → List (String × ℚ)
  | [] => [p]
  | q :: qs => if p.2 < q.2 then q :: insertDesc p qs else p :: q :: qs

/-- `sorted(scored_data, key=lambda x: x['aggregated_score'], reverse=True)`
(`endpoints.py` line 185): a stable sort descending by score, embedded as
stable insertion sort. -/
def sortDesc : List (String × ℚ) → List (String × ℚ)
  | [] => []
  | p :: ps => insertDesc p (sortDesc ps)

/-- `ranked_data` (`endpoints.py` line 185). -/
def rankedData (w : Scorer) (grid network temp : List MetricRecord) :
    List (String × ℚ) :=
  sortDesc (scoredData w grid network temp)

/-- The selection step `ranked_data[:k]` on a scored list: sort descending
by raw aggregated score, keep the first `k` entries. -/
def select_top_k (scores : List (String × ℚ)) (k : ℕ) : List (String × ℚ) :=
  (sortDesc scores).take k

/-- `top_hexagons` (`endpoints.py` line 188): the first five ranked entries,
keyed by hexagon id with the raw `aggregated_score` as value. -/
def topHexagons (w : Scorer) (grid network temp : List MetricRecord) :
    List (String × ℚ) :=
  (rankedData w grid network temp).take 5

/-- Python's `f"{x:.2f}"` at rational precision: round to the nearest
hundredth and render sign, integer part and two decimal digits (ties and
binary-float rounding are abstracted; no claim inspects the digits). -/
def formatScore (q : ℚ) : String :=
  let c : ℤ := round (q * 100)
  let a := c.natAbs
  (if c < 0 then "-" else "") ++ toString (a / 100) ++ "." ++
    (if a % 100 < 10 then "0" else "") ++ toString (a % 100)

/-- One line of the response message (`endpoints.py` line 193). -/
def entryLine (loc : String) (s : ℚ) : String :=
  "- The county of " ++ loc ++ " with score " ++ formatScore s ++ "\n"

/-- `response_message` (`endpoints.py` lines 191-194).  `resolve` is the
external place-name lookup for one hexagon id (h3 cell centre plus Nominatim
round trip), whose outcome feeds `latlng_to_location`. -/
def responseMessage (resolve : String → Option Address)
    (top : List (String × ℚ)) : String :=
  "These are the top 5 data center locations, based on my computations:\n" ++
    (top.foldl (fun acc p => acc ++ entryLine (latlng_to_location (resolve p.1)) p.2) "") ++
    "\nDo you want me to elaborate on them?"

/-- The aggregation-and-ranking core of `score` (`endpoints.py` lines
126-200), after the external collaborators have produced the weights `w`,
the three table contents, and the place-name lookup `resolve`. -/
def score (resolve : String → Option Address) (w : Scorer)
    (grid network temp : List MetricRecord) : InformationResponse :=
  { response := responseMessage resolve (topHexagons w grid network temp)
    hexagonData := hexagonDataList w grid network temp
    highlighted := topHexagons w grid network temp }

/-! ### Helper lemmas about the dict construction -/

theorem buildDict_eq_find? (rs : List MetricRecord) (k : String) :
    buildDict rs k = rs.reverse.find? fun r => decide (keyOf r = some k) := by
  induction rs using List.reverseRecOn with
  | nil => rfl
  | append_singleton rs r ih =>
    have hrev : (rs ++ [r]).reverse = r :: rs.reverse := by simp
    rw [hrev, buildDict, List.foldl_append, List.foldl_cons, List.foldl_nil]
    simp only [dictInsert]
    by_cases h : keyOf r = some k
    · rw [if_pos h]
      exact (List.find?_cons_of_pos rs.reverse (by simp [h])).symm
    · rw [if_neg h, List.find?_cons_of_neg rs.reverse (by simp [h])]
      exact ih

theorem mem_dictKeys_iff (rs : List MetricRecord) (k : String) :
    k ∈ dictKeys rs ↔ ∃ r ∈ rs, keyOf r = some k := by
  simp [dictKeys, List.mem_dedup, List.mem_filterMap]

theorem buildDict_ne_none_iff (rs : List MetricRecord) (k : String) :
    buildDict rs k ≠ none ↔ k ∈ dictKeys rs := by
  rw [buildDict_eq_find?, mem_dictKeys_iff, Ne, ← Option.not_isSome_iff_eq_none,
    not_not, List.find?_isSome]
  simp [List.mem_reverse]

theorem buildDict_eq_some_mem {rs : List MetricRecord} {k : String} {r : MetricRecord}
    (h : buildDict rs k = some r) : r ∈ rs ∧ keyOf r = some k := by
  rw [buildDict_eq_find?] at h
  refine ⟨List.mem_reverse.mp (List.mem_of_find?_eq_some h), ?_⟩
  have := List.find?_some h
  simpa using this

/-! ### Helper lemmas about the universe of ids -/

theorem mem_allIds_iff (grid network temp : List MetricRecord) (id : String) :
    id ∈ allIds grid network temp ↔
      id ∈ dictKeys grid ∨ id ∈ dictKeys network ∨ id ∈ dictKeys temp := by
  simp [allIds, List.mem_dedup, List.mem_append, or_assoc]

theorem allIds_nodup (grid network temp : List MetricRecord) :
    (allIds grid network temp).Nodup :=
  List.nodup_dedup _

/-! ### Helper lemmas about the stable descending sort -/

theorem mem_insertDesc (p q : String × ℚ) (l : List (String × ℚ)) :
    q ∈ insertDesc p l ↔ q = p ∨ q ∈ l := by
  induction l with
  | nil => simp [insertDesc]
  | cons r rs ih =>
    rw [insertDesc]
    by_cases h : p.2 < r.2
    · rw [if_pos h]
      simp [ih]
      tauto
    · rw [if_neg h]
      simp

theorem length_insertDesc (p : String × ℚ) (l : List (String × ℚ)) :
    (insertDesc p l).length = l.length + 1 := by
  induction l with
  | nil => rfl
  | cons r rs ih =>
    rw [insertDesc]
    by_cases h : p.2 < r.2
    · rw [if_pos h]
      simp [ih]
    · rw [if_neg h]
      simp

theorem pairwise_insertDesc (p : String × ℚ) (l : List (String × ℚ))
    (hl : l.Pairwise fun a b => b.2 ≤ a.2) :
    (insertDesc p l).Pairwise fun a b => b.2 ≤ a.2 := by
  induction l with
  | nil => simp [insertDesc]
  | cons r rs ih =>
    rw [insertDesc]
    rw [List.pairwise_cons] at hl
    by_cases h : p.2 < r.2
    · rw [if_pos h]
      refine List.pairwise_cons.mpr ⟨?_, ih hl.2⟩
      intro q hq
      rcases (mem_insertDesc p q rs).mp hq with rfl | hq
      · exact le_of_lt h
      · exact hl.1 q hq
    · rw [if_neg h]
      push_neg at h
      refine List.pairwise_cons.mpr ⟨?_, List.pairwise_cons.mpr hl⟩
      intro q hq
      rcases List.mem_cons.mp hq with rfl | hq
      · exact h
      · exact le_trans (hl.1 q hq) h

theorem mem_sortDesc (l : List (String × ℚ)) (q : String × ℚ) :
    q ∈ sortDesc l ↔ q ∈ l := by
  induction l with
  | nil => simp [sortDesc]
  | cons p ps ih =>
    rw [sortDesc, mem_insertDesc, ih]
    simp

theorem length_sortDesc (l : List (String × ℚ)) :
    (sortDesc l).length = l.length := by
  induction l with
  | nil => rfl
  | cons p ps ih =>
    rw [sortDesc, length_insertDesc, ih]
    rfl

theorem pairwise_sortDesc (l : List (String × ℚ)) :
    (sortDesc l).Pairwise fun a b => b.2 ≤ a.2 := by
  induction l with
  | nil => simp [sortDesc]
  | cons p ps ih => exact pairwise_insertDesc p _ ih

/-! ### Helper lemmas about the per-id computation and the pipeline lists -/

theorem normOf_of_missing {d : String → Option MetricRecord} {id : String}
    (h : (d id).bind MetricRecord.norm_score = none) : normOf d id = -1 := by
  rw [normOf, h]
  rfl

theorem normOf_of_value {d : String → Option MetricRecord} {id : String} {v : ℚ}
    (h : (d id).bind MetricRecord.norm_score = some v) : normOf d id = v := by
  rw [normOf, h]
  rfl

theorem mem_hexagonDataList_iff (w : Scorer) (grid network temp : List MetricRecord)
    (id : String) (hd : HexagonData) :
    (id, hd) ∈ hexagonDataList w grid network temp ↔
      id ∈ allIds grid network temp ∧
        hd = hexagonDataFor w (buildDict grid) (buildDict network) (buildDict temp) id := by
  rw [hexagonDataList, List.mem_map]
  constructor
  · rintro ⟨i, hi, heq⟩
    cases heq
    exact ⟨hi, rfl⟩
  · rintro ⟨hi, rfl⟩
    exact ⟨id, hi, rfl⟩

theorem mem_scoredData_iff (w : Scorer) (grid network temp : List MetricRecord)
    (id : String) (v : ℚ) :
    (id, v) ∈ scoredData w grid network temp ↔
      id ∈ allIds grid network temp ∧
        v = aggregatedScore w (normOf (buildDict grid) id)
          (normOf (buildDict network) id) (normOf (buildDict temp) id) := by
  rw [scoredData, List.mem_map]
  constructor
  · rintro ⟨i, hi, heq⟩
    cases heq
    exact ⟨hi, rfl⟩
  · rintro ⟨hi, rfl⟩
    exact ⟨id, hi, rfl⟩

theorem lookup_map_pair (f : String → HexagonData) (ids : List String) (id : String)
    (hid : id ∈ ids) :
    List.lookup id (ids.map fun i => (i, f i)) = some (f id) := by
  induction ids with
  | nil => cases hid
  | cons a as ih =>
    rw [List.map_cons, List.lookup_cons]
    by_cases h : id = a
    · subst h
      rw [beq_self_eq_true]
    · rw [beq_eq_false_iff_ne.mpr h]
      exact ih ((List.mem_cons.mp hid).resolve_left h)

theorem normOf_bounds (rs : List MetricRecord) (id : String)
    (hin : ∀ r ∈ rs, ∀ v ∈ r.norm_score, -1 ≤ v ∧ v ≤ 1) :
    -1 ≤ normOf (buildDict rs) id ∧ normOf (buildDict rs) id ≤ 1 := by
  rw [normOf]
  cases hbd : buildDict rs id with
  | none => norm_num
  | some r =>
    rw [show (some r).bind MetricRecord.norm_score = r.norm_score from rfl]
    cases hns : r.norm_score with
    | none => norm_num
    | some v =>
      rw [Option.getD_some]
      obtain ⟨hr, -⟩ := buildDict_eq_some_mem hbd
      exact hin r hr v (by simp [hns])

theorem normalizedAggregatedScore_cases (g n t agg : ℚ) :
    0 ≤ normalizedAggregatedScore g n t agg ∧ normalizedAggregatedScore g n t agg ≤ 1 ∧
      (normalizedAggregatedScore g n t agg = 0 ∨
        normalizedAggregatedScore g n t agg = max 0 (min 1 ((agg + 1) / 2))) := by
  rw [normalizedAggregatedScore]
  by_cases hall : g = -1 ∧ n = -1 ∧ t = -1
  · rw [if_pos hall]
    exact ⟨le_refl 0, by norm_num, Or.inl rfl⟩
  · rw [if_neg hall]
    exact ⟨le_max_left 0 _, max_le (by norm_num) (min_le_left 1 _), Or.inr rfl⟩

/-! ### Projections of the response, for stating claims against `score` -/

theorem score_hexagonData (resolve : String → Option Address) (w : Scorer)
    (grid network temp : List MetricRecord) :
    (score resolve w grid network temp).hexagonData = hexagonDataList w grid network temp :=
  rfl

theorem score_highlighted (resolve : String → Option Address) (w : Scorer)
    (grid network temp : List MetricRecord) :
    (score resolve w grid network temp).highlighted = topHexagons w grid network temp :=
  rfl

/-! ### Claims -/

/-- C1: for every weight vector and every collection of input records, every
entry produced by the aggregation in `score` has a `score` field
(`normalized_composite`) in `[0, 1]`: it is either exactly `0` via the
all-missing special case or the clamped value
`max 0 (min 1 ((raw_composite + 1) / 2))`. -/
theorem normalized_composite_mem_unit_interval
    (resolve : String → Option Address) (w : Scorer)
    (grid network temp : List MetricRecord) (id : String) (hd : HexagonData)
    (hmem : (id, hd) ∈ (score resolve w grid network temp).hexagonData) :
    0 ≤ hd.score ∧ hd.score ≤ 1 ∧
      (hd.score = 0 ∨
        hd.score = max 0 (min 1 ((aggregatedScore w (normOf (buildDict grid) id)
          (normOf (buildDict network) id) (normOf (buildDict temp) id) + 1) / 2))) := by
  rw [score_hexagonData, mem_hexagonDataList_iff] at hmem
  obtain ⟨hid, rfl⟩ := hmem
  simp only [hexagonDataFor]
  rw [normalizedAggregatedScore]
  by_cases hall : normOf (buildDict grid) id = -1 ∧ normOf (buildDict network) id = -1 ∧
      normOf (buildDict temp) id = -1
  · rw [if_pos hall]
    exact ⟨le_refl 0, by norm_num, Or.inl rfl⟩
  · rw [if_neg hall]
    exact ⟨le_max_left 0 _, max_le (by norm_num) (min_le_left 1 _), Or.inr rfl⟩

theorem normalized_composite_mem_unit_interval_witness :
    ("A", (⟨1/2, none, none, none, some 1, none, none⟩ : HexagonData)) ∈
        (score (fun _ => none) ⟨1/2, 0, 1/2⟩ [⟨some "A", none, some 1⟩] [] []).hexagonData ∧
      (0 : ℚ) ≤ 1/2 ∧ (1/2 : ℚ) ≤ 1 ∧
      ((1/2 : ℚ) = 0 ∨
        (1/2 : ℚ) = max 0 (min 1 ((aggregatedScore ⟨1/2, 0, 1/2⟩
          (normOf (buildDict [⟨some "A", none, some 1⟩]) "A") (normOf (buildDict []) "A")
          (normOf (buildDict []) "A") + 1) / 2))) := by
  have h1 : buildDict [(⟨some "A", none, some 1⟩ : MetricRecord)] "A" =
      some ⟨some "A", none, some 1⟩ := by decide
  have h3 : buildDict ([] : List MetricRecord) "A" = none := by decide
  have hchd : hexagonDataFor ⟨1/2, 0, 1/2⟩ (buildDict [⟨some "A", none, some 1⟩])
      (buildDict []) (buildDict []) "A" =
      (⟨1/2, none, none, none, some 1, none, none⟩ : HexagonData) := by
    simp only [hexagonDataFor, normOf, aggregatedScore, normalizedAggregatedScore, h1, h3,
      Option.bind_some, Option.bind_none, Option.getD_some, Option.getD_none]
    norm_num
  have hm : ("A", (⟨1/2, none, none, none, some 1, none, none⟩ : HexagonData)) ∈
      (score (fun _ => none) ⟨1/2, 0, 1/2⟩ [⟨some "A", none, some 1⟩] [] []).hexagonData := by
    rw [score_hexagonData, hexagonDataList,
      show allIds [(⟨some "A", none, some 1⟩ : MetricRecord)] [] [] = ["A"] from by decide,
      List.map_cons, List.map_nil, hchd]
    exact List.mem_singleton.mpr rfl
  exact ⟨hm, normalized_composite_mem_unit_interval _ _ _ _ _ _ _ hm⟩

/-- C2: if a hexagon has no normalized score available in any of the three
tables (record missing, field absent or null, so all three default to `-1`),
its `normalized_composite` is exactly `0`, via the special-case branch. -/
theorem all_missing_scores_zero
    (resolve : String → Option Address) (w : Scorer)
    (grid network temp : List MetricRecord) (id : String) (hd : HexagonData)
    (hmem : (id, hd) ∈ (score resolve w grid network temp).hexagonData)
    (hg : (buildDict grid id).bind MetricRecord.norm_score = none)
    (hn : (buildDict network id).bind MetricRecord.norm_score = none)
    (ht : (buildDict temp id).bind MetricRecord.norm_score = none) :
    hd.score = 0 := by
  rw [score_hexagonData, mem_hexagonDataList_iff] at hmem
  obtain ⟨hid, rfl⟩ := hmem
  simp only [hexagonDataFor]
  rw [normalizedAggregatedScore,
    if_pos ⟨normOf_of_missing hg, normOf_of_missing hn, normOf_of_missing ht⟩]

theorem all_missing_scores_zero_witness :
    ("A", (⟨0, some 3, none, none, none, none, none⟩ : HexagonData)) ∈
        (score (fun _ => none) ⟨1/2, 0, 1/2⟩ [⟨some "A", some 3, none⟩] [] []).hexagonData ∧
      (buildDict [(⟨some "A", some 3, none⟩ : MetricRecord)] "A").bind
        MetricRecord.norm_score = none ∧
      (buildDict ([] : List MetricRecord) "A").bind MetricRecord.norm_score = none ∧
      (⟨0, some 3, none, none, none, none, none⟩ : HexagonData).score = 0 := by
  have hm : ("A", (⟨0, some 3, none, none, none, none, none⟩ : HexagonData)) ∈
      (score (fun _ => none) ⟨1/2, 0, 1/2⟩ [⟨some "A", some 3, none⟩] [] []).hexagonData := by
    decide
  have hg : (buildDict [(⟨some "A", some 3, none⟩ : MetricRecord)] "A").bind
      MetricRecord.norm_score = none := by decide
  have he : (buildDict ([] : List MetricRecord) "A").bind MetricRecord.norm_score = none := by
    decide
  exact ⟨hm, hg, he, all_missing_scores_zero _ _ _ _ _ _ _ hm hg he he⟩

/-- C3: the set of hexagon ids scored by the aggregation equals the union of
the key sets of the three lookup dicts (records without a truthy
`hexagon_id` excluded), with exactly one output entry per id: an id absent
from all three dicts never appears, one present in a single dict is still
scored. -/
theorem scored_universe_is_union
    (resolve : String → Option Address) (w : Scorer)
    (grid network temp : List MetricRecord) :
    (((score resolve w grid network temp).hexagonData).map Prod.fst).Nodup ∧
      ∀ id : String,
        id ∈ ((score resolve w grid network temp).hexagonData).map Prod.fst ↔
          buildDict grid id ≠ none ∨ buildDict network id ≠ none ∨
            buildDict temp id ≠ none := by
  have hfst : ((score resolve w grid network temp).hexagonData).map Prod.fst =
      allIds grid network temp := by
    rw [score_hexagonData, hexagonDataList, List.map_map]
    exact List.map_id _
  rw [hfst]
  refine ⟨allIds_nodup grid network temp, fun id => ?_⟩
  rw [mem_allIds_iff]
  simp only [buildDict_ne_none_iff]

/-- C4: the selection step returns the first `min k n` entries of the scored
list sorted descending by the raw `aggregated_score`; the `score` endpoint
instantiates it with `k = 5`; `k = 0` or an empty scored list give an empty
result (and, the functions being total, no error). -/
theorem select_top_k_spec (scores : List (String × ℚ)) (k : ℕ) (w : Scorer)
    (grid network temp : List MetricRecord) :
    (select_top_k scores k).length = min k scores.length ∧
      (select_top_k scores k).Pairwise (fun a b => b.2 ≤ a.2) ∧
      select_top_k scores 0 = [] ∧
      select_top_k ([] : List (String × ℚ)) k = [] ∧
      topHexagons w grid network temp = select_top_k (scoredData w grid network temp) 5 := by
  refine ⟨?_, ?_, rfl, ?_, rfl⟩
  · rw [select_top_k, List.length_take, length_sortDesc]
  · exact List.Pairwise.sublist (List.take_sublist k _) (pairwise_sortDesc scores)
  · rw [select_top_k, show sortDesc ([] : List (String × ℚ)) = [] from rfl]
    exact List.take_nil

/-- C5: with non-negative weights, increasing a single dimension's
normalized score while holding the other two dimensions and the weights
fixed never decreases the raw composite `aggregated_score`. -/
theorem aggregated_score_monotone (w : Scorer)
    (hg : 0 ≤ w.score_grid) (hn : 0 ≤ w.score_network) (ht : 0 ≤ w.score_temperature)
    (g g' n n' t t' : ℚ) :
    (g ≤ g' → aggregatedScore w g n t ≤ aggregatedScore w g' n t) ∧
      (n ≤ n' → aggregatedScore w g n t ≤ aggregatedScore w g n' t) ∧
      (t ≤ t' → aggregatedScore w g n t ≤ aggregatedScore w g n t') := by
  refine ⟨fun h => ?_, fun h => ?_, fun h => ?_⟩ <;>
    · simp only [aggregatedScore]
      nlinarith [mul_le_mul_of_nonneg_left h hg, mul_le_mul_of_nonneg_left h hn,
        mul_le_mul_of_nonneg_left h ht]

theorem aggregated_score_monotone_witness :
    (0 : ℚ) ≤ (Scorer.mk (1/2) 0 (1/2)).score_grid ∧
      (0 : ℚ) ≤ (Scorer.mk (1/2) 0 (1/2)).score_network ∧
      (0 : ℚ) ≤ (Scorer.mk (1/2) 0 (1/2)).score_temperature ∧
      (((0 : ℚ) ≤ 1 →
          aggregatedScore ⟨1/2, 0, 1/2⟩ 0 (1/4) (1/4) ≤
            aggregatedScore ⟨1/2, 0, 1/2⟩ 1 (1/4) (1/4)) ∧
        ((1/4 : ℚ) ≤ 1/2 →
          aggregatedScore ⟨1/2, 0, 1/2⟩ 0 (1/4) (1/4) ≤
            aggregatedScore ⟨1/2, 0, 1/2⟩ 0 (1/2) (1/4)) ∧
        ((1/4 : ℚ) ≤ 1/2 →
          aggregatedScore ⟨1/2, 0, 1/2⟩ 0 (1/4) (1/4) ≤
            aggregatedScore ⟨1/2, 0, 1/2⟩ 0 (1/4) (1/2))) := by
  refine ⟨by norm_num, by norm_num, by norm_num, ?_⟩
  exact aggregated_score_monotone ⟨1/2, 0, 1/2⟩ (by norm_num) (by norm_num) (by norm_num)
    0 1 (1/4) (1/2) (1/4) (1/2)

/-- C6: when several records of the same table carry the same truthy
`hexagon_id`, the dict built for that table keeps exactly the record
appearing last in the input sequence, silently, with no merging or error. -/
theorem duplicate_hexagon_id_last_write_wins
    (pre mid post : List MetricRecord) (r1 r2 : MetricRecord) (h : String)
    (_h1 : keyOf r1 = some h) (h2 : keyOf r2 = some h)
    (hpost : ∀ r ∈ post, keyOf r ≠ some h) :
    buildDict (pre ++ r1 :: mid ++ r2 :: post) h = some r2 := by
  rw [buildDict_eq_find?]
  have hrev : (pre ++ r1 :: mid ++ r2 :: post).reverse =
      post.reverse ++ [r2] ++ (mid.reverse ++ [r1] ++ pre.reverse) := by
    simp
  rw [hrev]
  have hpostnone : post.reverse.find? (fun r => decide (keyOf r = some h)) = none :=
    List.find?_eq_none.mpr fun x hx => by
      simpa using hpost x (List.mem_reverse.mp hx)
  rw [List.find?_append, List.find?_append, hpostnone]
  simp [h2]

theorem duplicate_hexagon_id_last_write_wins_witness :
    keyOf ⟨some "A", none, some 1⟩ = some "A" ∧
      keyOf ⟨some "A", none, some 2⟩ = some "A" ∧
      (∀ r ∈ ([] : List MetricRecord), keyOf r ≠ some "A") ∧
      buildDict [⟨some "A", none, some 1⟩, ⟨some "A", none, some 2⟩] "A" =
        some ⟨some "A", none, some 2⟩ := by
  refine ⟨by decide, by decide, by decide, ?_⟩
  exact duplicate_hexagon_id_last_write_wins [] [] [] ⟨some "A", none, some 1⟩
    ⟨some "A", none, some 2⟩ "A" (by decide) (by decide) (by decide)

/-- C7: the aggregation never fails because of missing per-hexagon data: a
dimension whose record is absent, or whose normalized-score field is absent
or null, contributes the default `-1`, and the hexagon still receives an
output entry; the (total) computation completes normally. -/
theorem missing_data_defaults_and_completes
    (resolve : String → Option Address) (w : Scorer)
    (grid network temp : List MetricRecord) (id : String)
    (hid : id ∈ allIds grid network temp) :
    ((buildDict grid id).bind MetricRecord.norm_score = none →
        normOf (buildDict grid) id = -1) ∧
      ((buildDict network id).bind MetricRecord.norm_score = none →
        normOf (buildDict network) id = -1) ∧
      ((buildDict temp id).bind MetricRecord.norm_score = none →
        normOf (buildDict temp) id = -1) ∧
      ∃ hd : HexagonData, (id, hd) ∈ (score resolve w grid network temp).hexagonData := by
  refine ⟨normOf_of_missing, normOf_of_missing, normOf_of_missing, ?_⟩
  exact ⟨hexagonDataFor w (buildDict grid) (buildDict network) (buildDict temp) id,
    (mem_hexagonDataList_iff w grid network temp id _).mpr ⟨hid, rfl⟩⟩

theorem missing_data_defaults_and_completes_witness :
    "A" ∈ allIds [(⟨some "A", some 3, none⟩ : MetricRecord)] [] [] ∧
      (((buildDict [(⟨some "A", some 3, none⟩ : MetricRecord)] "A").bind
          MetricRecord.norm_score = none →
        normOf (buildDict [(⟨some "A", some 3, none⟩ : MetricRecord)]) "A" = -1) ∧
      ((buildDict ([] : List MetricRecord) "A").bind MetricRecord.norm_score = none →
        normOf (buildDict ([] : List MetricRecord)) "A" = -1) ∧
      ((buildDict ([] : List MetricRecord) "A").bind MetricRecord.norm_score = none →
        normOf (buildDict ([] : List MetricRecord)) "A" = -1) ∧
      ∃ hd : HexagonData,
        ("A", hd) ∈ (score (fun _ => none) ⟨1/2, 0, 1/2⟩
          [⟨some "A", some 3, none⟩] [] []).hexagonData) := by
  have hid : "A" ∈ allIds [(⟨some "A", some 3, none⟩ : MetricRecord)] [] [] := by decide
  exact ⟨hid, missing_data_defaults_and_completes (fun _ => none) ⟨1/2, 0, 1/2⟩
    [⟨some "A", some 3, none⟩] [] [] "A" hid⟩

/-- C8 counterexample: on a failed place-name lookup the per-entry line of
the response message displays the fixed placeholder `"Unknown"`, not the raw
hexagon identifier, so the claim's fallback-to-identifier clause is false at
the hexagon id `"8a1fb46622dffff"`. -/
theorem place_name_fallback_is_not_identifier :
    latlng_to_location none = "Unknown" ∧
      entryLine (latlng_to_location none) 0 =
        "- The county of Unknown with score 0.00\n" ∧
      latlng_to_location none ≠ "8a1fb46622dffff" := by
  have hz : round ((0 : ℚ) * 100) = 0 := by norm_num
  refine ⟨rfl, ?_, by decide⟩
  rw [entryLine, formatScore]
  simp only [hz]
  decide

/-- C8 amended: place-name resolution never raises and never fails the
overall response (it is a total function into strings); on any lookup
failure — transport error, non-success status, or all address fields absent
or empty — the presenter falls back to the fixed placeholder `"Unknown"`
(not the raw hexagon identifier) in the per-entry line. -/
theorem place_name_resolution_falls_back_to_unknown (resp : Option Address)
    (hfail : resp = none ∨ ∃ a, resp = some a ∧ truthy a.town = false ∧
      truthy a.city = false ∧ truthy a.village = false) :
    latlng_to_location resp = "Unknown" := by
  rcases hfail with rfl | ⟨a, rfl, ht, hc, hv⟩
  · rfl
  · simp [latlng_to_location, ht, hc, hv]

theorem place_name_resolution_falls_back_to_unknown_witness :
    ((none : Option Address) = none ∨ ∃ a, (none : Option Address) = some a ∧
        truthy a.town = false ∧ truthy a.city = false ∧ truthy a.village = false) ∧
      latlng_to_location none = "Unknown" :=
  ⟨Or.inl rfl, place_name_resolution_falls_back_to_unknown none (Or.inl rfl)⟩

/-- C9 counterexample: with weights `(2, 0, 0)` (sum `2 ≠ 1`) and all three
normalized-score fields present and equal to `-1`, the special-case branch
yields `0`, and the general clamped rescale formula ALSO yields `0` (the raw
composite `-2` clamps to `0`), so the claim's clause "when the weights do
not sum to 1 this 0.0 differs from what the general clamped rescale formula
would produce" is false at this input. -/
theorem minus_one_special_case_no_difference_for_large_weights :
    (2 : ℚ) + 0 + 0 ≠ 1 ∧
      (hexagonDataFor ⟨2, 0, 0⟩ (buildDict [⟨some "A", none, some (-1)⟩])
        (buildDict [⟨some "A", none, some (-1)⟩])
        (buildDict [⟨some "A", none, some (-1)⟩]) "A").score = 0 ∧
      max 0 (min 1 ((aggregatedScore ⟨2, 0, 0⟩ (-1) (-1) (-1) + 1) / 2)) = 0 := by
  have hv : normOf (buildDict [(⟨some "A", none, some (-1)⟩ : MetricRecord)]) "A" = -1 :=
    normOf_of_value (by decide)
  refine ⟨by norm_num, ?_, ?_⟩
  · simp only [hexagonDataFor]
    rw [hv, normalizedAggregatedScore, if_pos ⟨rfl, rfl, rfl⟩]
  · rw [aggregatedScore]
    norm_num [min_def, max_def]

/-- C9 amended: the all-missing special case is triggered by the value `-1`
rather than by absence: if all three normalized-score fields are present and
each equals exactly `-1`, the hexagon's `normalized_composite` is set to `0`
by the special-case branch, indistinguishable (in the `score` field) from a
hexagon with no data at all; and this `0` differs from what the general
clamped rescale formula would produce exactly when the weights sum to less
than `1` (for a sum of at least `1` the formula also clamps to `0`). -/
theorem minus_one_values_trigger_special_case
    (w : Scorer) (grid network temp : List MetricRecord) (id : String)
    (hg : (buildDict grid id).bind MetricRecord.norm_score = some (-1))
    (hn : (buildDict network id).bind MetricRecord.norm_score = some (-1))
    (ht : (buildDict temp id).bind MetricRecord.norm_score = some (-1)) :
    (hexagonDataFor w (buildDict grid) (buildDict network) (buildDict temp) id).score = 0 ∧
      (hexagonDataFor w (buildDict grid) (buildDict network) (buildDict temp) id).score =
        (hexagonDataFor w (fun _ => none) (fun _ => none) (fun _ => none) id).score ∧
      (max 0 (min 1 ((aggregatedScore w (-1) (-1) (-1) + 1) / 2)) ≠ 0 ↔
        w.score_grid + w.score_network + w.score_temperature < 1) := by
  have hg' := normOf_of_value hg
  have hn' := normOf_of_value hn
  have ht' := normOf_of_value ht
  have hzero : (hexagonDataFor w (buildDict grid) (buildDict network) (buildDict temp)
      id).score = 0 := by
    simp only [hexagonDataFor]
    rw [hg', hn', ht', normalizedAggregatedScore, if_pos ⟨rfl, rfl, rfl⟩]
  have hmiss : (hexagonDataFor w (fun _ => none) (fun _ => none) (fun _ => none)
      id).score = 0 := by
    simp only [hexagonDataFor]
    rw [show normOf (fun _ => none) id = -1 from rfl, normalizedAggregatedScore,
      if_pos ⟨rfl, rfl, rfl⟩]
  refine ⟨hzero, hzero.trans hmiss.symm, ?_⟩
  have hagg : aggregatedScore w (-1) (-1) (-1) =
      -(w.score_grid + w.score_network + w.score_temperature) := by
    rw [aggregatedScore]
    ring
  rw [hagg]
  constructor
  · intro hne
    by_contra hs
    push_neg at hs
    apply hne
    rw [max_eq_left_iff]
    exact le_trans (min_le_right 1 _) (by linarith)
  · intro hs hmax
    rw [max_eq_left_iff] at hmax
    have hpos : (0 : ℚ) < min 1 ((-(w.score_grid + w.score_network + w.score_temperature)
        + 1) / 2) := lt_min_iff.mpr ⟨by norm_num, by linarith⟩
    linarith

theorem minus_one_values_trigger_special_case_witness :
    (buildDict [(⟨some "A", none, some (-1)⟩ : MetricRecord)] "A").bind
        MetricRecord.norm_score = some (-1) ∧
      ((hexagonDataFor ⟨1/2, 0, 0⟩ (buildDict [⟨some "A", none, some (-1)⟩])
          (buildDict [⟨some "A", none, some (-1)⟩])
          (buildDict [⟨some "A", none, some (-1)⟩]) "A").score = 0 ∧
        (hexagonDataFor ⟨1/2, 0, 0⟩ (buildDict [⟨some "A", none, some (-1)⟩])
            (buildDict [⟨some "A", none, some (-1)⟩])
            (buildDict [⟨some "A", none, some (-1)⟩]) "A").score =
          (hexagonDataFor ⟨1/2, 0, 0⟩ (fun _ => none) (fun _ => none) (fun _ => none)
            "A").score ∧
        (max 0 (min 1 ((aggregatedScore ⟨1/2, 0, 0⟩ (-1) (-1) (-1) + 1) / 2)) ≠ 0 ↔
          (1/2 : ℚ) + 0 + 0 < 1)) := by
  have hb : (buildDict [(⟨some "A", none, some (-1)⟩ : MetricRecord)] "A").bind
      MetricRecord.norm_score = some (-1) := by decide
  exact ⟨hb, minus_one_values_trigger_special_case ⟨1/2, 0, 0⟩ _ _ _ "A" hb hb hb⟩

/-- C10: under the weight-vector invariant (non-negative weights summing to
1) and the data-model invariant (present normalized scores in `[-1, 1]`),
the response reports each top-5 hexagon on two scales: the `highlighted`
value is the raw composite `aggregated_score` (in `[-1, 1]`), the response
message is built from those same raw values, while the `hexagonData` entry
for the same id carries the normalized composite (in `[0, 1]`) in its
`score` field; the two coincide only when the raw composite equals its own
clamped rescale. -/
theorem highlighted_raw_vs_hexagon_data_normalized
    (resolve : String → Option Address) (w : Scorer)
    (grid network temp : List MetricRecord)
    (hsum : w.score_grid + w.score_network + w.score_temperature = 1)
    (hg : 0 ≤ w.score_grid) (hn : 0 ≤ w.score_network) (ht : 0 ≤ w.score_temperature)
    (hin : ∀ r ∈ grid ++ network ++ temp, ∀ v ∈ r.norm_score, -1 ≤ v ∧ v ≤ 1)
    (id : String) (raw : ℚ)
    (hmem : (id, raw) ∈ (score resolve w grid network temp).highlighted) :
    raw = aggregatedScore w (normOf (buildDict grid) id) (normOf (buildDict network) id)
        (normOf (buildDict temp) id) ∧
      -1 ≤ raw ∧ raw ≤ 1 ∧
      List.lookup id (score resolve w grid network temp).hexagonData =
        some (hexagonDataFor w (buildDict grid) (buildDict network) (buildDict temp) id) ∧
      0 ≤ (hexagonDataFor w (buildDict grid) (buildDict network) (buildDict temp) id).score ∧
      (hexagonDataFor w (buildDict grid) (buildDict network) (buildDict temp) id).score ≤ 1 ∧
      (raw = (hexagonDataFor w (buildDict grid) (buildDict network) (buildDict temp)
          id).score →
        raw = max 0 (min 1 ((raw + 1) / 2))) ∧
      (score resolve w grid network temp).response =
        responseMessage resolve (topHexagons w grid network temp) := by
  rw [score_highlighted] at hmem
  have hmem' : (id, raw) ∈ scoredData w grid network temp :=
    (mem_sortDesc _ _).mp (List.mem_of_mem_take hmem)
  obtain ⟨hid, hraw⟩ := (mem_scoredData_iff w grid network temp id raw).mp hmem'
  have hinG : ∀ r ∈ grid, ∀ v ∈ r.norm_score, -1 ≤ v ∧ v ≤ 1 := fun r hr =>
    hin r (by simp [hr])
  have hinN : ∀ r ∈ network, ∀ v ∈ r.norm_score, -1 ≤ v ∧ v ≤ 1 := fun r hr =>
    hin r (by simp [hr])
  have hinT : ∀ r ∈ temp, ∀ v ∈ r.norm_score, -1 ≤ v ∧ v ≤ 1 := fun r hr =>
    hin r (by simp [hr])
  have bg := normOf_bounds grid id hinG
  have bn := normOf_bounds network id hinN
  have bt := normOf_bounds temp id hinT
  have hrawlo : -1 ≤ raw := by
    rw [hraw, aggregatedScore]
    nlinarith [mul_nonneg hg (by linarith [bg.1] : (0 : ℚ) ≤ normOf (buildDict grid) id + 1),
      mul_nonneg hn (by linarith [bn.1] : (0 : ℚ) ≤ normOf (buildDict network) id + 1),
      mul_nonneg ht (by linarith [bt.1] : (0 : ℚ) ≤ normOf (buildDict temp) id + 1)]
  have hrawhi : raw ≤ 1 := by
    rw [hraw, aggregatedScore]
    nlinarith [mul_nonneg hg (by linarith [bg.2] : (0 : ℚ) ≤ 1 - normOf (buildDict grid) id),
      mul_nonneg hn (by linarith [bn.2] : (0 : ℚ) ≤ 1 - normOf (buildDict network) id),
      mul_nonneg ht (by linarith [bt.2] : (0 : ℚ) ≤ 1 - normOf (buildDict temp) id)]
  have hlookup : List.lookup id (score resolve w grid network temp).hexagonData =
      some (hexagonDataFor w (buildDict grid) (buildDict network) (buildDict temp) id) := by
    rw [score_hexagonData, hexagonDataList]
    exact lookup_map_pair _ _ id hid
  have hsc : (hexagonDataFor w (buildDict grid) (buildDict network) (buildDict temp)
      id).score = normalizedAggregatedScore (normOf (buildDict grid) id)
        (normOf (buildDict network) id) (normOf (buildDict temp) id)
        (aggregatedScore w (normOf (buildDict grid) id) (normOf (buildDict network) id)
          (normOf (buildDict temp) id)) := rfl
  obtain ⟨hs0, hs1, -⟩ := normalizedAggregatedScore_cases (normOf (buildDict grid) id)
    (normOf (buildDict network) id) (normOf (buildDict temp) id)
    (aggregatedScore w (normOf (buildDict grid) id) (normOf (buildDict network) id)
      (normOf (buildDict temp) id))
  refine ⟨hraw, hrawlo, hrawhi, hlookup, hsc ▸ hs0, hsc ▸ hs1, ?_, rfl⟩
  intro heq
  rw [hsc, normalizedAggregatedScore] at heq
  by_cases hall : normOf (buildDict grid) id = -1 ∧ normOf (buildDict network) id = -1 ∧
      normOf (buildDict temp) id = -1
  · rw [if_pos hall] at heq
    have hneg : raw = -1 := by
      rw [hraw, hall.1, hall.2.1, hall.2.2, aggregatedScore]
      linarith
    rw [heq] at hneg
    norm_num at hneg
  · rw [if_neg hall, ← hraw] at heq
    exact heq

theorem highlighted_raw_vs_hexagon_data_normalized_witness :
    (Scorer.mk (1/2) 0 (1/2)).score_grid + (Scorer.mk (1/2) 0 (1/2)).score_network +
        (Scorer.mk (1/2) 0 (1/2)).score_temperature = 1 ∧
      (∀ r ∈ [(⟨some "A", none, some 1⟩ : MetricRecord)] ++ [] ++ [],
        ∀ v ∈ r.norm_score, -1 ≤ v ∧ v ≤ 1) ∧
      ("A", (0 : ℚ)) ∈ (score (fun _ => none) ⟨1/2, 0, 1/2⟩
        [⟨some "A", none, some 1⟩] [] []).highlighted ∧
      (0 : ℚ) = aggregatedScore ⟨1/2, 0, 1/2⟩
        (normOf (buildDict [⟨some "A", none, some 1⟩]) "A") (normOf (buildDict []) "A")
        (normOf (buildDict []) "A") ∧
      List.lookup "A" (score (fun _ => none) ⟨1/2, 0, 1/2⟩
          [⟨some "A", none, some 1⟩] [] []).hexagonData =
        some (hexagonDataFor ⟨1/2, 0, 1/2⟩ (buildDict [⟨some "A", none, some 1⟩])
          (buildDict []) (buildDict []) "A") ∧
      ((0 : ℚ) = (hexagonDataFor ⟨1/2, 0, 1/2⟩ (buildDict [⟨some "A", none, some 1⟩])
          (buildDict []) (buildDict []) "A").score →
        (0 : ℚ) = max 0 (min 1 ((0 + 1) / 2))) := by
  have hin : ∀ r ∈ [(⟨some "A", none, some 1⟩ : MetricRecord)] ++ [] ++ [],
      ∀ v ∈ r.norm_score, -1 ≤ v ∧ v ≤ 1 := by
    intro r hr v hv
    rcases List.mem_singleton.mp (by simpa using hr) with rfl
    simp only [Option.mem_def,
      show (⟨some "A", none, some 1⟩ : MetricRecord).norm_score = some 1 from rfl,
      Option.some.injEq] at hv
    subst hv
    norm_num
  have hmem : ("A", (0 : ℚ)) ∈ (score (fun _ => none) ⟨1/2, 0, 1/2⟩
      [⟨some "A", none, some 1⟩] [] []).highlighted := by
    rw [score_highlighted]
    have hs : scoredData ⟨1/2, 0, 1/2⟩ [⟨some "A", none, some 1⟩] [] [] = [("A", 0)] := by
      have h1 : buildDict [(⟨some "A", none, some 1⟩ : MetricRecord)] "A" =
          some ⟨some "A", none, some 1⟩ := by decide
      have h3 : buildDict ([] : List MetricRecord) "A" = none := by decide
      rw [scoredData,
        show allIds [(⟨some "A", none, some 1⟩ : MetricRecord)] [] [] = ["A"] from by decide,
        List.map_cons, List.map_nil]
      simp only [aggregatedScore, normOf, h1, h3]
      norm_num
    rw [topHexagons, rankedData, hs]
    exact List.mem_singleton.mpr rfl
  have h := highlighted_raw_vs_hexagon_data_normalized (fun _ => none) ⟨1/2, 0, 1/2⟩
    [⟨some "A", none, some 1⟩] [] [] (by norm_num) (by norm_num) (by norm_num) (by norm_num)
    hin "A" 0 hmem
  exact ⟨by norm_num, hin, hmem, h.1, h.2.2.2.1, h.2.2.2.2.2.2.1⟩

end GridAgent
